import Mathlib

/-!
Verification of the distributed compile-offload core of sccache, shallowly
embedded from `src/compiler/c.rs` and `src/dist/mod.rs`.

Modelling conventions:
* byte strings are `List Nat`;
* Rust `String` / `OsString` values that are only compared for equality or fed
  to the digest are Lean `String`s, whose bytes we take to be the character
  codes (identical to UTF-8 on the ASCII data handled by this code);
* stateful operations are explicit state-passing functions;
* operations that can `panic!`/`assert!` return `Option` or a dedicated
  outcome constructor.
-/

namespace Sccache

/-- Bytes of a string: its character codes (UTF-8-identical on ASCII data). -/
def strBytes (s : String) : List Nat := s.data.map Char.toNat

/-- The lowercase hexadecimal alphabet used by digest finalisation: the digit
characters of the nibble values 0 through 15 (digits then lowercase a-f). -/
def hexChars : List Char := (List.range 16).map Nat.digitChar

/-- The lowercase hex digit of a nibble. -/
def hexDigit (n : Nat) : Char := Nat.digitChar (n % 16)

/-- Lowercase hexadecimal rendering of a byte sequence. -/
def toLowerHex (bytes : List Nat) : String :=
  ⟨bytes.flatMap (fun b => [hexDigit (b % 256 / 16), hexDigit (b % 16)])⟩

/-- Modelled from the spec: the cryptographic digest of `util.rs` (`Digest` and
`HashToDigest`), which is not under `src/`.  The spec (section 4.1) requires only
that the key deriver "feed a cryptographic digest, in fixed order" and "finalise
to a lowercase hex string", and that arguments and env names/values are fed "as
raw bytes".  We model the digest state as the transcript of the bytes fed so far
and finalisation as an injective lowercase-hex rendering of that transcript. -/
structure Digest where
  fed : List Nat
deriving DecidableEq

/-- `Digest::new()`. -/
def Digest.new : Digest := ⟨[]⟩

/-- `m.update(bytes)` appends the bytes to the transcript. -/
def Digest.update (m : Digest) (bytes : List Nat) : Digest := ⟨m.fed ++ bytes⟩

/-- `m.finish()`: finalisation to a lowercase hex string (spec-modelled). -/
def Digest.finish (m : Digest) : String := toLowerHex m.fed

/-- `Language` from `src/compiler/c.rs`. -/
inductive Language where
  | C
  | Cxx
  | ObjectiveC
  | ObjectiveCxx
deriving DecidableEq

/-- `Language::as_str` from `src/compiler/c.rs` (lines 112-119). -/
def Language.as_str : Language → String
  | .C => "c"
  | .Cxx => "c++"
  | .ObjectiveC => "objc"
  | .ObjectiveCxx => "objc++"

/-- `CACHE_VERSION` from `src/compiler/c.rs` line 390: the byte string `b"6"`. -/
def CACHE_VERSION : List Nat := strBytes "6"

/-- `CACHED_ENV_VARS` from `src/compiler/c.rs` lines 392-398.  The source keeps
them in a `HashSet`; only membership is ever queried, so a list is faithful. -/
def CACHED_ENV_VARS : List String :=
  ["MACOSX_DEPLOYMENT_TARGET", "IPHONEOS_DEPLOYMENT_TARGET"]

/-- `hash_key` from `src/compiler/c.rs` lines 400-424. -/
def hash_key (compiler_digest : String) (language : Language) (arguments : List String)
    (env_vars : List (String × String)) (preprocessor_output : List Nat) : String :=
  let m := Digest.new
  let m := m.update (strBytes compiler_digest)
  let m := m.update CACHE_VERSION
  let m := m.update (strBytes language.as_str)
  let m := arguments.foldl (fun m arg => m.update (strBytes arg)) m
  let m := env_vars.foldl
    (fun m kv =>
      if kv.1 ∈ CACHED_ENV_VARS then
        ((m.update (strBytes kv.1)).update (strBytes "=")).update (strBytes kv.2)
      else m) m
  let m := m.update preprocessor_output
  m.finish

/-- The bytes contributed to the digest transcript by the environment variables:
for each pair whose name is in the allow-list, in iteration order, the name
bytes, a literal `=`, and the value bytes. -/
def envTranscript (env_vars : List (String × String)) : List Nat :=
  ((env_vars.filter (fun kv => kv.1 ∈ CACHED_ENV_VARS)).map
    (fun kv => strBytes kv.1 ++ strBytes "=" ++ strBytes kv.2)).flatten

/-- The pre-processed-language tag table of `generate_dist_requests`
(src/compiler/c.rs lines 336-341). -/
def dist_lang_tag : Language → String
  | .C => "cpp-output"
  | .Cxx => "c++-cpp-output"
  | .ObjectiveC => "objective-c-cpp-output"
  | .ObjectiveCxx => "objective-c++-cpp-output"

/-- The argument-rewriting loop of `generate_dist_requests` (src/compiler/c.rs
lines 342-350).  The boolean is the `lang_next` flag; once a token is replaced
the loop `break`s, so the remaining tokens are untouched. -/
def rw_go (tag : String) : Bool → List String → List String
  | _, [] => []
  | langNext, a :: rest =>
    if a = "-x" then a :: rw_go tag true rest
    else if langNext then tag :: rest
    else a :: rw_go tag false rest

/-- The rewrite `generate_dist_requests` applies to the compiler argument
vector before building the distributed `JobRequest`. -/
def dist_rewrite_args (lang : Language) (args : List String) : List String :=
  rw_go (dist_lang_tag lang) false args

/-- The rewrite as claim C5 states it, formalising the spec's words for
comparison with `dist_rewrite_args`: the token immediately following the first
`-x` is replaced with the tag and every other token is unchanged. -/
def claimed_x_rewrite (lang : Language) : List String → List String
  | [] => []
  | a :: rest =>
    if a = "-x" then
      a :: (match rest with
            | [] => []
            | _ :: tail => dist_lang_tag lang :: tail)
    else a :: claimed_x_rewrite lang rest

/-- `process::Output` of a finished subprocess: exit status and captured
stdout/stderr bytes. -/
structure ProcOutput where
  status : Int
  stdout : List Nat
  stderr : List Nat
deriving DecidableEq

/-- The error kinds reaching the `or_else` of `generate_hash_key`:
`ErrorKind::ProcessError(output)` and everything else. -/
inductive CompileErrorKind where
  | ProcessError (output : ProcOutput)
  | Other (msg : String)
deriving DecidableEq

/-- `ParsedArguments` (src/compiler/c.rs lines 70-87), restricted to the fields
read by the operations embedded here (`language` and `common_args` feed the
hash; `input` names the source file).  The remaining fields (depfile, outputs,
preprocessor_args, msvc_show_includes, profile_generate) are unused here. -/
structure ParsedArguments where
  input : String
  language : Language
  common_args : List String
deriving DecidableEq

/-- `generate_hash_key` (src/compiler/c.rs lines 212-302), restricted to the
key computation.  The preprocessor collaborator is modelled as the sequence of
its invocation results (`preprocess n` is what the n-th invocation would
yield); the source invokes it exactly once, so only `preprocess 0` is
consumed.  On `ProcessError` the stdout is dropped and the error rethrown
(lines 231-245); on success the key is computed by `hash_key` from the digest,
language, `common_args`, env vars and the preprocessor stdout (lines
251-257). -/
def generate_hash_key (executable_digest : String) (parsed_args : ParsedArguments)
    (env_vars : List (String × String))
    (preprocess : Nat → Except CompileErrorKind ProcOutput) :
    Except CompileErrorKind String :=
  match preprocess 0 with
  | .error (.ProcessError output) =>
      .error (.ProcessError { output with stdout := [] })
  | .error e => .error e
  | .ok preprocessor_result =>
      .ok (hash_key executable_digest parsed_args.language parsed_args.common_args
            env_vars preprocessor_result.stdout)

/-- `Toolchain` (src/dist/mod.rs lines 42-47). -/
structure Toolchain where
  docker_img : String
  archive_id : String
deriving DecidableEq

/-- `ProcessOutput` (src/dist/mod.rs lines 50-55). -/
structure ProcessOutput where
  code : Option Int
  stdout : List Nat
  stderr : List Nat
deriving DecidableEq

/-- `CompileCommand` is declared in the compiler module, not under src/.
Modelled from the spec (section 3): executable path, argument list, working
directory, environment variables. -/
structure CompileCommand where
  executable : String
  arguments : List String
  env_vars : List (String × String)
  cwd : String
deriving DecidableEq

/-- `JobRequest` (src/dist/mod.rs lines 82-90). -/
structure JobRequest where
  command : CompileCommand
  inputs_archive : List Nat
  outputs : List String
  toolchain : Toolchain
  toolchain_data : Option (List Nat)
deriving DecidableEq

/-- `JobComplete` (src/dist/mod.rs lines 96-100). -/
structure JobComplete where
  output : ProcessOutput
  outputs : List (String × List Nat)
deriving DecidableEq

/-- `JobResult` (src/dist/mod.rs lines 91-95). -/
inductive JobResult where
  | Complete (res : JobComplete)
  | NeedToolchain
deriving DecidableEq

/-- `BuildResult` (src/dist/mod.rs lines 118-121). -/
structure BuildResult where
  output : ProcessOutput
  outputs : List (String × List Nat)
deriving DecidableEq

/-- `JobAllocRequest` (src/dist/mod.rs lines 102-105). -/
structure JobAllocRequest where
  toolchain : Toolchain
deriving DecidableEq

/-- A socket address (`std::net::SocketAddr`). -/
structure SocketAddr where
  ip : String
  port : Nat
deriving DecidableEq

/-- `JobAllocResult` (src/dist/mod.rs lines 106-110); `JobId` is a u64. -/
structure JobAllocResult where
  job_id : Nat
  addr : SocketAddr
deriving DecidableEq

/-- `AllocAssignment` (src/dist/mod.rs lines 112-115). -/
structure AllocAssignment where
  job_id : Nat
deriving DecidableEq

/-- `JobStatus` (src/dist/mod.rs lines 160-169); `ServerId` is a u64. -/
inductive JobStatus where
  | AllocRequested (req : JobAllocRequest)
  | AllocSuccess (server : Nat) (req : JobAllocRequest) (res : JobAllocResult)
  | JobStarted (server : Nat) (req : JobAllocRequest) (res : JobAllocResult)
  | JobCompleted (server : Nat) (req : JobAllocRequest) (res : JobAllocResult)
  | JobFailed (server : Nat) (req : JobAllocRequest) (res : JobAllocResult)
deriving DecidableEq

/-- Port constants (src/dist/mod.rs lines 73-75). -/
def SCHEDULER_SERVERS_PORT : Nat := 10500

def SCHEDULER_CLIENTS_PORT : Nat := 10501

def SERVER_CLIENTS_PORT : Nat := 10502

/-- First-match association-list lookup, the model of the `HashMap` and
disk-cache lookups. -/
def assocLookup {α : Type} (k : String) : List (String × α) → Option α
  | [] => none
  | (k2, v) :: rest => if k = k2 then some v else assocLookup k rest

/-- Modelled from the spec: `TcCache` (dist/cache.rs, which is not under
src/), the content-addressed toolchain blob store of section 4.2.  Entries are
keyed by strong key; an existing entry is never overwritten. -/
abbrev TcCacheStore : Type := List (String × List Nat)

/-- Modelled from the spec: the strong key computed by `TcCache::insert_file`
is "the content hash of the packaged archive" (sections 3 and 4.2);
`toLowerHex` serves as an injective executable stand-in for that hash. -/
def content_hash (data : List Nat) : String := toLowerHex data

/-- `TcCache::insert_file` (spec-modelled, see `TcCacheStore`): insert the
archive bytes under their content hash and return the strong key. -/
def tc_insert_file (cache : TcCacheStore) (data : List Nat) : String × TcCacheStore :=
  let strong_key := content_hash data
  (strong_key,
   if (assocLookup strong_key cache).isSome then cache else (strong_key, data) :: cache)

/-- `TcCache::insert_with` (spec-modelled, section 4.2 store contract): create
the entry by callback; "if the entry already exists the callback is not
invoked".  `data` is what the callback would write. -/
def tc_insert_with (cache : TcCacheStore) (key : String) (data : List Nat) : TcCacheStore :=
  if (assocLookup key cache).isSome then cache else (key, data) :: cache

/-- `TcCache::contains_key` (spec-modelled, section 4.2 store contract). -/
def tc_contains_key (cache : TcCacheStore) (key : String) : Bool :=
  (assocLookup key cache).isSome

/-- `SccacheDaemonClient` (src/dist/mod.rs lines 264-270): the toolchain blob
store and the weak-to-strong map (the config-dir path and the thread pool are
I/O machinery outside the model). -/
structure SccacheDaemonClient where
  cache : TcCacheStore
  weak_map : List (String × String)
deriving DecidableEq

/-- `weak_to_strong` (src/dist/mod.rs lines 298-300). -/
def weak_to_strong (s : SccacheDaemonClient) (weak_key : String) : Option String :=
  assocLookup weak_key s.weak_map

/-- `record_weak` (src/dist/mod.rs lines 301-306).  `HashMap::insert` replaces
any existing entry; consing is equivalent under first-match lookup.  The
rewrite of `weak_map.json` is disk I/O outside the model. -/
def record_weak (s : SccacheDaemonClient) (weak_key strong_key : String) : SccacheDaemonClient :=
  { s with weak_map := (weak_key, strong_key) :: s.weak_map }

/-- `put_toolchain_cache` (src/dist/mod.rs lines 340-357).  `create` stands for
the packager callback, valued by the bytes it would write to the temporary
archive file.  The returned boolean records whether `create` was invoked. -/
def put_toolchain_cache (s : SccacheDaemonClient) (weak_key : String) (create : List Nat) :
    String × SccacheDaemonClient × Bool :=
  match weak_to_strong s weak_key with
  | some strong_key => (strong_key, s, false)
  | none =>
    let r := tc_insert_file s.cache create
    (r.1, record_weak { s with cache := r.2 } weak_key r.1, true)

/-- `SccacheDaemonServer` (src/dist/mod.rs lines 360-364): its toolchain store
and the scheduler address (the builder is passed separately as a function). -/
structure SccacheDaemonServer where
  cache : TcCacheStore
  sched_addr : SocketAddr
deriving DecidableEq

/-- The toolchain-ingestion prelude of the worker's `handle_compile_request`
(src/dist/mod.rs lines 428-432): when `toolchain_data` is present, insert it
under the request's archive id. -/
def ingest_toolchain (cache : TcCacheStore) (req : JobRequest) : TcCacheStore :=
  match req.toolchain_data with
  | some data => tc_insert_with cache req.toolchain.archive_id data
  | none => cache

/-- `SccacheDaemonServer::handle_compile_request` (src/dist/mod.rs lines
427-438).  `builder` is the `BuilderHandler` collaborator (the source hands it
the request plus a handle to the same cache). -/
def handle_compile_request (builder : JobRequest → BuildResult)
    (s : SccacheDaemonServer) (req : JobRequest) : JobResult × SccacheDaemonServer :=
  let cache1 := ingest_toolchain s.cache req
  if tc_contains_key cache1 req.toolchain.archive_id = false then
    (JobResult.NeedToolchain, { s with cache := cache1 })
  else
    let res := builder req
    (JobResult.Complete { output := res.output, outputs := res.outputs },
     { s with cache := cache1 })

/-- `SccacheDaemonServer::handle_allocation_assign` (src/dist/mod.rs lines
423-426): the body is `f_ok(())`.  The second component is the list of
container-runtime commands issued while handling the assignment (none). -/
def handle_allocation_assign (s : SccacheDaemonServer) (_alloc : AllocAssignment) :
    SccacheDaemonServer × List (List String) :=
  (s, [])

/-- `SccacheScheduler` (src/dist/mod.rs lines 177-188).  Each worker entry is
its address and the assignment channel, modelled as the list of
`AllocAssignment`s sent on it so far. -/
structure SccacheScheduler where
  job_count : Nat
  jobs : List (Nat × JobStatus)
  finished_jobs : List JobStatus
  servers : List (SocketAddr × List AllocAssignment)
deriving DecidableEq

/-- `SccacheScheduler::handle_allocation_request` (src/dist/mod.rs lines
233-246), with `do_allocation_assign` (lines 247-261) inlined as an append to
the single worker's channel.  The source asserts `servers.len() == 1`;
assertion failure is `none`.  The request itself is not otherwise used. -/
def handle_allocation_request (s : SccacheScheduler) (_req : JobAllocRequest) :
    Option (SccacheScheduler × JobAllocResult) :=
  match s.servers with
  | [(addr, chan)] =>
    some ({ s with
              job_count := s.job_count + 1,
              servers := [(addr, chan ++ [{ job_id := s.job_count }])] },
          { job_id := s.job_count,
            addr := { ip := addr.ip, port := SERVER_CLIENTS_PORT } })
  | _ => none

/-- Rust `str::split` on a single separator character: `""` yields `[""]` and
a trailing separator yields a trailing empty piece. -/
def splitOnChar (sep : Char) : List Char → List (List Char)
  | [] => [[]]
  | c :: rest =>
    match splitOnChar sep rest with
    | [] => [[c]]
    | piece :: pieces =>
      if c = sep then [] :: piece :: pieces else (c :: piece) :: pieces

/-- Rust `str::trim`: drop whitespace from both ends. -/
def rustTrim (s : List Char) : List Char :=
  ((s.dropWhile Char.isWhitespace).reverse.dropWhile Char.isWhitespace).reverse

/-- Split at the first occurrence of `sep`; `none` when `sep` does not occur. -/
def splitFirst (sep : Char) : List Char → Option (List Char × List Char)
  | [] => none
  | c :: rest =>
    if c = sep then some ([], rest)
    else
      match splitFirst sep rest with
      | none => none
      | some (front, back) => some (c :: front, back)

/-- One diff line parsed by `line.splitn(2, ' ')` followed by two `unwrap`s
(src/dist/mod.rs lines 504-507): the change type and the path.  `none` is the
panic on a line with no space (the second `next()` yields `None`). -/
def parse_diff_line (line : List Char) : Option (List Char × List Char) :=
  splitFirst ' ' line

/-- `Path::starts_with`: component-wise path comparison.  Components are the
non-empty pieces between `/` separators, with a root marker for absolute
paths. -/
def path_components (p : List Char) : List (List Char) :=
  (if p.head? = some '/' then [['/']] else []) ++ (splitOnChar '/' p).filter (· ≠ [])

def path_starts_with (p base : List Char) : Bool :=
  (path_components base).isPrefixOf (path_components p)

/-- The skip test of the deletion loop (src/dist/mod.rs lines 516-520): skip a
path that extends the previously deleted path. -/
def skip_test : Option (List Char) → List Char → Bool
  | none, _ => false
  | some lastpath, p => path_starts_with p lastpath

/-- Outcome of `finish_container`: panic on a malformed diff line; the
container force-removed (`docker rm -f`); or the container returned to the
pool, carrying the paths passed to `docker exec ... rm -rf`, in order. -/
inductive FinishOutcome where
  | panic
  | removed
  | pooled (deleted : List (List Char))
deriving DecidableEq

/-- The per-line loop of `finish_container` (src/dist/mod.rs lines 502-528),
with `lastpath` the most recently deleted path. -/
def finish_go (lastpath : Option (List Char)) : List (List Char) → FinishOutcome
  | [] => .pooled []
  | line :: rest =>
    match parse_diff_line line with
    | none => .panic
    | some (changetype, changepath) =>
      if changetype = ['A'] then
        if skip_test lastpath changepath then finish_go lastpath rest
        else
          match finish_go (some changepath) rest with
          | .pooled deleted => .pooled (changepath :: deleted)
          | other => other
      else .removed

/-- `finish_container` (src/dist/mod.rs lines 490-528) applied to the raw
`docker diff` stdout: trim, split on newlines, then the per-line loop.  (The
initial `kill -9 -1` and the docker invocations are subprocess I/O; their
decisions are captured by the outcome.) -/
def finish_container (diff : List Char) : FinishOutcome :=
  finish_go none (splitOnChar '\n' (rustTrim diff))

/-- The deletion sequence as the spec describes it: delete each path in diff
order, skipping a path that extends the previously deleted one. -/
def skip_subpaths (lastpath : Option (List Char)) : List (List Char) → List (List Char)
  | [] => []
  | p :: rest =>
    if skip_test lastpath p then skip_subpaths lastpath rest
    else p :: skip_subpaths (some p) rest

/-- Test fixture: a freshly started scheduler with one registered worker. -/
def sched0 : SccacheScheduler :=
  { job_count := 0, jobs := [], finished_jobs := [],
    servers := [({ ip := "127.0.0.1", port := 34567 }, [])] }

/-- Test fixture: an allocation request. -/
def req0 : JobAllocRequest :=
  { toolchain := { docker_img := "aidanhs/busybox", archive_id := "abc" } }

/-- Test fixture: the scheduler state after `handle_allocation_request sched0 req0`. -/
def sched1 : SccacheScheduler :=
  { job_count := 1, jobs := [], finished_jobs := [],
    servers := [({ ip := "127.0.0.1", port := 34567 }, [{ job_id := 0 }])] }

/-- Test fixture: the allocation result returned for `sched0`. -/
def res1 : JobAllocResult :=
  { job_id := 0, addr := { ip := "127.0.0.1", port := SERVER_CLIENTS_PORT } }

/-- Test fixture: a worker daemon with an empty toolchain store. -/
def server0 : SccacheDaemonServer :=
  { cache := [], sched_addr := { ip := "127.0.0.1", port := SCHEDULER_SERVERS_PORT } }

@[simp] theorem Digest.fed_update (m : Digest) (bytes : List Nat) :
    (m.update bytes).fed = m.fed ++ bytes := rfl

@[simp] theorem Digest.fed_new : Digest.new.fed = [] := rfl

theorem hexDigit_mem (n : Nat) : hexDigit n ∈ hexChars := by
  unfold hexDigit hexChars
  exact List.mem_map_of_mem _ (List.mem_range.mpr (Nat.mod_lt _ (by norm_num)))

theorem toLowerHex_mem (bytes : List Nat) :
    ∀ c ∈ (toLowerHex bytes).data, c ∈ hexChars := by
  intro c hc
  have hc2 : c ∈ bytes.flatMap (fun b => [hexDigit (b % 256 / 16), hexDigit (b % 16)]) := hc
  rw [List.mem_flatMap] at hc2
  obtain ⟨b, _, hcc⟩ := hc2
  simp only [List.mem_cons, List.not_mem_nil, or_false] at hcc
  rcases hcc with h | h <;> (subst h; exact hexDigit_mem _)

theorem foldl_update_args (m : Digest) (args : List String) :
    (args.foldl (fun m arg => m.update (strBytes arg)) m).fed
      = m.fed ++ (args.map strBytes).flatten := by
  induction args generalizing m with
  | nil => simp
  | cons a rest ih =>
    simp only [List.foldl_cons, List.map_cons, List.flatten_cons]
    rw [ih]
    simp [List.append_assoc]

theorem foldl_update_env (m : Digest) (env : List (String × String)) :
    (env.foldl
      (fun m kv =>
        if kv.1 ∈ CACHED_ENV_VARS then
          ((m.update (strBytes kv.1)).update (strBytes "=")).update (strBytes kv.2)
        else m) m).fed
      = m.fed ++ envTranscript env := by
  induction env generalizing m with
  | nil => simp [envTranscript]
  | cons kv rest ih =>
    simp only [List.foldl_cons]
    by_cases h : kv.1 ∈ CACHED_ENV_VARS
    · rw [if_pos h, ih]
      simp [envTranscript, h, List.filter_cons, List.append_assoc]
    · rw [if_neg h, ih]
      simp [envTranscript, h, List.filter_cons]

/-- The digest transcript of `hash_key`, in the order the source feeds it. -/
theorem hash_key_fed (cd : String) (lang : Language) (args : List String)
    (env : List (String × String)) (pre : List Nat) :
    hash_key cd lang args env pre
      = toLowerHex (strBytes cd ++ CACHE_VERSION ++ strBytes lang.as_str
          ++ (args.map strBytes).flatten ++ envTranscript env ++ pre) := by
  simp only [hash_key, Digest.finish]
  rw [Digest.fed_update, foldl_update_env, foldl_update_args]
  simp [List.append_assoc]

/-- C1: `hash_key` feeds the digest, in this fixed order: the compiler digest
bytes; the cache-version constant; the language tag as ASCII (exactly `c`,
`c++`, `objc` or `objc++`); each argument in order as its raw bytes; for each
allow-listed `(name, value)` env pair in iteration order the name bytes, a
literal `=`, and the value bytes; and finally the preprocessed output bytes —
and returns the finalised lowercase hex string.  Purity is intrinsic to the
equation: the key is a function of exactly these inputs. -/
theorem hash_key_spec (cd : String) (lang : Language) (args : List String)
    (env : List (String × String)) (pre : List Nat) :
    hash_key cd lang args env pre
      = toLowerHex (strBytes cd ++ CACHE_VERSION ++ strBytes lang.as_str
          ++ (args.map strBytes).flatten ++ envTranscript env ++ pre)
    ∧ lang.as_str ∈ (["c", "c++", "objc", "objc++"] : List String)
    ∧ ∀ c ∈ (hash_key cd lang args env pre).data, c ∈ hexChars := by
  refine ⟨hash_key_fed cd lang args env pre, ?_, ?_⟩
  · cases lang <;> decide
  · rw [hash_key_fed]
    exact toLowerHex_mem _

/-- C2: an environment variable whose name is not in the allow-list has no
influence on the derived key — inserting such a pair anywhere, or changing its
value, leaves the key unchanged. -/
theorem hash_key_env_allowlist_invariant (cd : String) (lang : Language)
    (args : List String) (pre : List Nat) (name val val2 : String)
    (xs ys : List (String × String)) (h : name ∉ CACHED_ENV_VARS) :
    hash_key cd lang args (xs ++ (name, val) :: ys) pre
      = hash_key cd lang args (xs ++ ys) pre
    ∧ hash_key cd lang args (xs ++ (name, val) :: ys) pre
      = hash_key cd lang args (xs ++ (name, val2) :: ys) pre := by
  have key : ∀ v : String, envTranscript (xs ++ (name, v) :: ys) = envTranscript (xs ++ ys) := by
    intro v
    simp [envTranscript, List.filter_append, List.filter_cons, h]
  constructor <;> simp [hash_key_fed, key]

/-- Witness for C2 at a concrete input: adding `PATH` does not change the key. -/
theorem hash_key_env_allowlist_invariant_witness :
    hash_key "digest" Language.C ["-c"] [("PATH", "/usr/bin")] [104]
      = hash_key "digest" Language.C ["-c"] [] [104] :=
  (hash_key_env_allowlist_invariant "digest" Language.C ["-c"] [104]
    "PATH" "/usr/bin" "" [] [] (by decide)).1

theorem weak_to_strong_record (s : SccacheDaemonClient) (w k : String) :
    weak_to_strong (record_weak s w k) w = some k := by
  simp [weak_to_strong, record_weak, assocLookup]

theorem weak_to_strong_put_persist (s : SccacheDaemonClient) (w k w2 : String)
    (f2 : List Nat) (h : weak_to_strong s w = some k) :
    weak_to_strong (put_toolchain_cache s w2 f2).2.1 w = some k := by
  unfold put_toolchain_cache
  cases hw2 : weak_to_strong s w2 with
  | some k2 => simpa using h
  | none =>
    have hne : w ≠ w2 := by
      intro e
      subst e
      rw [h] at hw2
      cases hw2
    simpa [weak_to_strong, record_weak, assocLookup, hne] using h

/-- C3: once `put_toolchain_cache` has mapped a weak key to a strong key,
every subsequent call with that weak key returns the same strong key without
invoking its callback; the weak-to-strong map holds the mapping in the state
returned by the first (miss) call, and no later call ever remaps the weak
key. -/
theorem put_toolchain_cache_weak_map_spec (s0 : SccacheDaemonClient) (w : String)
    (f : List Nat) (k : String) (s1 : SccacheDaemonClient) (b : Bool)
    (h : put_toolchain_cache s0 w f = (k, s1, b)) :
    weak_to_strong s1 w = some k
    ∧ (∀ f2, put_toolchain_cache s1 w f2 = (k, s1, false))
    ∧ (∀ w2 f2, weak_to_strong (put_toolchain_cache s1 w2 f2).2.1 w = some k) := by
  have h1 : weak_to_strong s1 w = some k := by
    unfold put_toolchain_cache at h
    cases hw : weak_to_strong s0 w with
    | some k0 =>
      rw [hw] at h
      simp only [Prod.mk.injEq] at h
      obtain ⟨hk, hs, -⟩ := h
      rw [← hs, ← hk]
      exact hw
    | none =>
      rw [hw] at h
      simp only [Prod.mk.injEq] at h
      obtain ⟨hk, hs, -⟩ := h
      rw [← hs, ← hk]
      exact weak_to_strong_record _ _ _
  refine ⟨h1, ?_, ?_⟩
  · intro f2
    simp [put_toolchain_cache, h1]
  · intro w2 f2
    exact weak_to_strong_put_persist s1 w k w2 f2 h1

/-- Witness for C3: after inserting archive bytes `[1, 2]` under weak key
`wk`, a repeated call returns the recorded strong key `0102` without invoking
the callback and leaves the state unchanged. -/
theorem put_toolchain_cache_weak_map_spec_witness :
    weak_to_strong { cache := [("0102", [1, 2])], weak_map := [("wk", "0102")] } "wk"
        = some "0102"
    ∧ put_toolchain_cache { cache := [("0102", [1, 2])], weak_map := [("wk", "0102")] } "wk" [9]
        = ("0102", { cache := [("0102", [1, 2])], weak_map := [("wk", "0102")] }, false) := by
  have h := put_toolchain_cache_weak_map_spec { cache := [], weak_map := [] } "wk" [1, 2]
    "0102" { cache := [("0102", [1, 2])], weak_map := [("wk", "0102")] } true (by decide)
  exact ⟨h.1, h.2.1 [9]⟩

theorem tc_contains_insert_with (cache : TcCacheStore) (key : String) (data : List Nat) :
    tc_contains_key (tc_insert_with cache key data) key = true := by
  unfold tc_contains_key tc_insert_with
  by_cases h : (assocLookup key cache).isSome
  · simp [h]
  · simp [h, assocLookup]

/-- C4: the worker's compile handler first ingests any `toolchain_data` under
the request's archive id, replies `NeedToolchain` (without invoking the
builder) exactly when the store still lacks the archive id, and otherwise
replies `Complete` with the builder's process output and `(path, bytes)`
outputs; when `toolchain_data` is present the store contains the archive id
afterwards. -/
theorem handle_compile_request_spec (builder : JobRequest → BuildResult)
    (s : SccacheDaemonServer) (req : JobRequest) :
    ((handle_compile_request builder s req).1 = JobResult.NeedToolchain
        ↔ tc_contains_key (ingest_toolchain s.cache req) req.toolchain.archive_id = false)
    ∧ (tc_contains_key (ingest_toolchain s.cache req) req.toolchain.archive_id = false →
        ∀ builder2, handle_compile_request builder2 s req
          = (JobResult.NeedToolchain, { s with cache := ingest_toolchain s.cache req }))
    ∧ (tc_contains_key (ingest_toolchain s.cache req) req.toolchain.archive_id = true →
        handle_compile_request builder s req
          = (JobResult.Complete
               { output := (builder req).output, outputs := (builder req).outputs },
             { s with cache := ingest_toolchain s.cache req }))
    ∧ (∀ data, req.toolchain_data = some data →
        tc_contains_key (ingest_toolchain s.cache req) req.toolchain.archive_id = true) := by
  refine ⟨?_, ?_, ?_, ?_⟩
  · cases hc : tc_contains_key (ingest_toolchain s.cache req) req.toolchain.archive_id <;>
      simp [handle_compile_request, hc]
  · intro hc builder2
    simp [handle_compile_request, hc]
  · intro hc
    simp [handle_compile_request, hc]
  · intro data hd
    unfold ingest_toolchain
    rw [hd]
    exact tc_contains_insert_with _ _ _

/-- Witness for C4: with an empty store and no `toolchain_data`, the worker
replies `NeedToolchain` and does not consult the builder. -/
theorem handle_compile_request_spec_witness :
    handle_compile_request
      (fun _ => { output := { code := some 0, stdout := [], stderr := [] }, outputs := [] })
      server0
      { command := { executable := "/gcc", arguments := [], env_vars := [], cwd := "/b" },
        inputs_archive := [], outputs := [],
        toolchain := { docker_img := "i", archive_id := "t" }, toolchain_data := none }
      = (JobResult.NeedToolchain, server0) :=
  (handle_compile_request_spec
    (fun _ => { output := { code := some 0, stdout := [], stderr := [] }, outputs := [] })
    server0
    { command := { executable := "/gcc", arguments := [], env_vars := [], cwd := "/b" },
      inputs_archive := [], outputs := [],
      toolchain := { docker_img := "i", archive_id := "t" }, toolchain_data := none }).2.1
    (by decide)
    (fun _ => { output := { code := some 0, stdout := [], stderr := [] }, outputs := [] })

theorem rw_go_false_no_x (tag : String) (front rest : List String) (h : "-x" ∉ front) :
    rw_go tag false (front ++ rest) = front ++ rw_go tag false rest := by
  induction front with
  | nil => rfl
  | cons a l ih =>
    have ha : a ≠ "-x" := by
      intro e
      exact h (by simp [e])
    have hl : "-x" ∉ l := fun hm => h (List.mem_cons_of_mem _ hm)
    have hane : ¬(a = "-x") := ha
    simp [rw_go, hane, ih hl]

theorem rw_go_false_cons_x (tag : String) (l : List String) :
    rw_go tag false ("-x" :: l) = "-x" :: rw_go tag true l := by
  simp [rw_go]

theorem rw_go_true_all_x (tag : String) (mid rest : List String)
    (h : ∀ m ∈ mid, m = "-x") :
    rw_go tag true (mid ++ rest) = mid ++ rw_go tag true rest := by
  induction mid with
  | nil => rfl
  | cons a l ih =>
    have ha : a = "-x" := h a (by simp)
    have hl : ∀ m ∈ l, m = "-x" := fun m hm => h m (List.mem_cons_of_mem _ hm)
    simp [rw_go, ha, ih hl]

theorem rw_go_true_replace (tag : String) (t : String) (post : List String)
    (ht : t ≠ "-x") :
    rw_go tag true (t :: post) = tag :: post := by
  have htne : ¬(t = "-x") := ht
  simp [rw_go, htne]

theorem rw_go_false_no_x_all (tag : String) (args : List String) (h : "-x" ∉ args) :
    rw_go tag false args = args := by
  have h2 := rw_go_false_no_x tag args [] h
  simpa [rw_go] using h2

/-- C5 counterexample: on the argument vector `["-x", "-x", "foo"]` the claim
prescribes replacing the token immediately following the first `-x` (yielding
`["-x", "cpp-output", "foo"]`), but the source loop treats the second `-x` as
another flag-setter and instead replaces `"foo"`, yielding
`["-x", "-x", "cpp-output"]`. -/
theorem dist_rewrite_claim_counterexample :
    dist_rewrite_args Language.C ["-x", "-x", "foo"] = ["-x", "-x", "cpp-output"]
    ∧ claimed_x_rewrite Language.C ["-x", "-x", "foo"] = ["-x", "cpp-output", "foo"]
    ∧ dist_rewrite_args Language.C ["-x", "-x", "foo"]
        ≠ claimed_x_rewrite Language.C ["-x", "-x", "foo"] :=
  ⟨by decide, by decide, by decide⟩

/-- C5 (amended): the rewrite replaces the first token that follows the first
`-x` and is not itself `-x` with the pre-processed-language tag of the parsed
language (C: `cpp-output`, C++: `c++-cpp-output`, Objective-C:
`objective-c-cpp-output`, Objective-C++: `objective-c++-cpp-output`), leaving
every other token unchanged; if `-x` does not occur, or only `-x` tokens
follow the first `-x`, the vector is unchanged. -/
theorem dist_rewrite_args_amended (lang : Language) :
    (∀ front mid t post, "-x" ∉ front → (∀ m ∈ mid, m = "-x") → t ≠ "-x" →
        dist_rewrite_args lang (front ++ "-x" :: (mid ++ t :: post))
          = front ++ "-x" :: (mid ++ dist_lang_tag lang :: post))
    ∧ (∀ args, "-x" ∉ args → dist_rewrite_args lang args = args)
    ∧ (∀ front mid, "-x" ∉ front → (∀ m ∈ mid, m = "-x") →
        dist_rewrite_args lang (front ++ "-x" :: mid) = front ++ "-x" :: mid)
    ∧ dist_lang_tag Language.C = "cpp-output"
    ∧ dist_lang_tag Language.Cxx = "c++-cpp-output"
    ∧ dist_lang_tag Language.ObjectiveC = "objective-c-cpp-output"
    ∧ dist_lang_tag Language.ObjectiveCxx = "objective-c++-cpp-output" := by
  refine ⟨?_, ?_, ?_, rfl, rfl, rfl, rfl⟩
  · intro front mid t post hf hm ht
    unfold dist_rewrite_args
    rw [rw_go_false_no_x _ _ _ hf, rw_go_false_cons_x,
        rw_go_true_all_x _ _ _ hm, rw_go_true_replace _ _ _ ht]
  · intro args h
    exact rw_go_false_no_x_all _ args h
  · intro front mid hf hm
    unfold dist_rewrite_args
    rw [rw_go_false_no_x _ _ _ hf, rw_go_false_cons_x]
    have h2 := rw_go_true_all_x (dist_lang_tag lang) mid [] hm
    simp only [List.append_nil, rw_go] at h2
    rw [h2]

/-- Witness for C5 (amended): `-x c++` becomes `-x c++-cpp-output` and no
other token changes. -/
theorem dist_rewrite_args_amended_witness :
    dist_rewrite_args Language.Cxx ["a", "-x", "c++", "b"]
      = ["a", "-x", "c++-cpp-output", "b"] :=
  (dist_rewrite_args_amended Language.Cxx).1 ["a"] [] "c++" ["b"]
    (by decide) (by decide) (by decide)

/-- C6: when the preprocessor exits non-zero, `generate_hash_key` rethrows the
`ProcessError` with the stdout replaced by the empty byte vector and the
stderr and exit status unchanged; the result depends only on the first
preprocessor invocation, so no retry is attempted. -/
theorem generate_hash_key_preprocessor_error (executable_digest : String)
    (parsed_args : ParsedArguments) (env_vars : List (String × String))
    (preprocess : Nat → Except CompileErrorKind ProcOutput) (output : ProcOutput)
    (h : preprocess 0 = .error (.ProcessError output)) :
    generate_hash_key executable_digest parsed_args env_vars preprocess
      = .error (.ProcessError
          { status := output.status, stdout := [], stderr := output.stderr })
    ∧ ∀ preprocess2 : Nat → Except CompileErrorKind ProcOutput,
        preprocess2 0 = preprocess 0 →
        generate_hash_key executable_digest parsed_args env_vars preprocess2
          = generate_hash_key executable_digest parsed_args env_vars preprocess := by
  constructor
  · unfold generate_hash_key
    rw [h]
  · intro preprocess2 h2
    unfold generate_hash_key
    rw [h2]

/-- Witness for C6: a preprocessor failure with status 1, stdout `[104, 105]`
and stderr `[101]` propagates with the stdout emptied and the rest intact. -/
theorem generate_hash_key_preprocessor_error_witness :
    generate_hash_key "d" { input := "a.c", language := Language.C, common_args := [] } []
      (fun _ => .error (.ProcessError { status := 1, stdout := [104, 105], stderr := [101] }))
      = .error (.ProcessError { status := 1, stdout := [], stderr := [101] }) :=
  (generate_hash_key_preprocessor_error "d"
    { input := "a.c", language := Language.C, common_args := [] } []
    (fun _ => .error (.ProcessError { status := 1, stdout := [104, 105], stderr := [101] }))
    { status := 1, stdout := [104, 105], stderr := [101] } rfl).1

theorem finish_go_eq (lastpath : Option (List Char)) (lines : List (List Char))
    (h : ∀ l ∈ lines, (parse_diff_line l).isSome = true) :
    finish_go lastpath lines =
      if (lines.filterMap parse_diff_line).all (fun e => e.1 == ['A']) then
        FinishOutcome.pooled
          (skip_subpaths lastpath ((lines.filterMap parse_diff_line).map Prod.snd))
      else FinishOutcome.removed := by
  induction lines generalizing lastpath with
  | nil => simp [finish_go, skip_subpaths]
  | cons line rest ih =>
    have hline : (parse_diff_line line).isSome = true := h line (by simp)
    obtain ⟨⟨t, p⟩, hp⟩ : ∃ e, parse_diff_line line = some e :=
      Option.isSome_iff_exists.mp hline
    have hrest : ∀ l ∈ rest, (parse_diff_line l).isSome = true :=
      fun l hl => h l (List.mem_cons_of_mem _ hl)
    have step : finish_go lastpath (line :: rest)
        = if t = ['A'] then
            (if skip_test lastpath p then finish_go lastpath rest
             else match finish_go (some p) rest with
                  | .pooled deleted => .pooled (p :: deleted)
                  | other => other)
          else .removed := by
      simp [finish_go, hp]
    have hfm : List.filterMap parse_diff_line (line :: rest)
        = (t, p) :: List.filterMap parse_diff_line rest := by
      simp [List.filterMap_cons, hp]
    rw [step, hfm]
    by_cases ht : t = ['A']
    · by_cases hs : skip_test lastpath p = true
      · rw [if_pos ht, if_pos hs, ih lastpath hrest]
        simp [ht, hs, skip_subpaths]
      · rw [if_pos ht, if_neg hs, ih (some p) hrest]
        cases hall : (rest.filterMap parse_diff_line).all (fun e => e.1 == ['A']) <;>
          simp [ht, hs, hall, skip_subpaths]
    · rw [if_neg ht]
      simp [ht]

/-- C7: given a well-formed diff (every line parses as change type and path),
`finish_container` returns the container to the pool exactly when every diff
entry has change type `A`; it then deletes the added paths in diff order,
skipping each path that extends the previously deleted one; any non-addition
entry makes it force-remove the container instead, never pooling it. -/
theorem finish_container_recycling (diff : List Char)
    (h : ∀ l ∈ splitOnChar '\n' (rustTrim diff), (parse_diff_line l).isSome = true) :
    finish_container diff =
      if ((splitOnChar '\n' (rustTrim diff)).filterMap parse_diff_line).all
          (fun e => e.1 == ['A']) then
        FinishOutcome.pooled
          (skip_subpaths none
            (((splitOnChar '\n' (rustTrim diff)).filterMap parse_diff_line).map Prod.snd))
      else FinishOutcome.removed :=
  finish_go_eq none (splitOnChar '\n' (rustTrim diff)) h

/-- Witness for C7: on the all-addition diff `A /a`, `A /a/b`, `A /c` the
container is pooled; `/a/b` is skipped because it extends the just-deleted
`/a`. -/
theorem finish_container_recycling_witness :
    finish_container ("A /a\nA /a/b\nA /c").data
      = FinishOutcome.pooled ["/a".data, "/c".data] := by
  rw [finish_container_recycling ("A /a\nA /a/b\nA /c").data (by decide)]
  decide

/-- C8 counterexample: a successful allocation on a fresh scheduler with one
registered worker returns job id 0 and sends the assignment, but the job table
of the resulting state is empty: neither `JobStatus::AllocRequested` nor
`JobStatus::AllocSuccess` is recorded for the returned job id (the `jobs` map
is never written by `handle_allocation_request`), refuting the claim. -/
theorem handle_allocation_request_no_status_counterexample :
    handle_allocation_request sched0 req0 = some (sched1, res1)
    ∧ sched1.jobs = []
    ∧ sched1.jobs.lookup res1.job_id = none := by
  refine ⟨by decide, rfl, rfl⟩

/-- C8 (amended): `handle_allocation_request` assigns the fresh JobId
`job_count`, increments the counter, appends an `AllocAssignment` carrying
that JobId to the single worker's channel, and returns that worker's address
at `SERVER_CLIENTS_PORT` — but records no `JobStatus` at all: the job table
and the finished-jobs ring are unchanged. -/
theorem handle_allocation_request_amended (s : SccacheScheduler)
    (req : JobAllocRequest) (s2 : SccacheScheduler) (res : JobAllocResult)
    (h : handle_allocation_request s req = some (s2, res)) :
    res.job_id = s.job_count
    ∧ s2.job_count = s.job_count + 1
    ∧ s2.jobs = s.jobs
    ∧ s2.finished_jobs = s.finished_jobs
    ∧ res.addr.port = SERVER_CLIENTS_PORT
    ∧ ∃ addr chan, s.servers = [(addr, chan)]
        ∧ s2.servers = [(addr, chan ++ [{ job_id := s.job_count }])]
        ∧ res.addr.ip = addr.ip := by
  unfold handle_allocation_request at h
  split at h
  next addr chan heq =>
    simp only [Option.some.injEq, Prod.mk.injEq] at h
    obtain ⟨hs, hres⟩ := h
    subst hs
    subst hres
    exact ⟨rfl, rfl, rfl, rfl, rfl, addr, chan, heq, rfl, rfl⟩
  next =>
    cases h

/-- Witness for C8 (amended) on the concrete fixtures `sched0`, `req0`. -/
theorem handle_allocation_request_amended_witness :
    res1.job_id = sched0.job_count
    ∧ sched1.job_count = sched0.job_count + 1
    ∧ sched1.jobs = sched0.jobs
    ∧ sched1.finished_jobs = sched0.finished_jobs
    ∧ res1.addr.port = SERVER_CLIENTS_PORT
    ∧ ∃ addr chan, sched0.servers = [(addr, chan)]
        ∧ sched1.servers = [(addr, chan ++ [{ job_id := sched0.job_count }])]
        ∧ res1.addr.ip = addr.ip :=
  handle_allocation_request_amended sched0 req0 sched1 res1 (by decide)

/-- C9 counterexample: on a concrete assignment the worker's handler returns
its state unchanged and issues no container commands; in particular the
contained JobId 7 is not recorded anywhere (the handler body is `f_ok(())` and
the server state has no buffer of expected job ids), refuting the recording
half of the claim. -/
theorem handle_allocation_assign_noop_counterexample :
    handle_allocation_assign server0 { job_id := 7 } = (server0, [])
    ∧ (handle_allocation_assign server0 { job_id := 7 }).1 = server0 :=
  ⟨rfl, rfl⟩

/-- C9 (amended): the worker ignores an `AllocAssignment` entirely: the state
is returned unchanged — so the JobId is neither recorded nor buffered — and no
container work is performed. -/
theorem handle_allocation_assign_amended (s : SccacheDaemonServer)
    (alloc : AllocAssignment) :
    handle_allocation_assign s alloc = (s, []) := rfl

theorem splitFirst_isSome (sep : Char) (line : List Char) :
    (splitFirst sep line).isSome = true ↔ sep ∈ line := by
  induction line with
  | nil => simp [splitFirst]
  | cons c rest ih =>
    by_cases hc : c = sep
    · subst hc
      simp [splitFirst]
    · have hcs : ¬sep = c := fun e => hc e.symm
      cases hsf : splitFirst sep rest with
      | none =>
        rw [hsf] at ih
        simp only [Option.isSome_none, Bool.false_eq_true, false_iff] at ih
        simp [splitFirst, hc, hsf, List.mem_cons, hcs, ih]
      | some pr =>
        obtain ⟨front, back⟩ := pr
        rw [hsf] at ih
        simp only [Option.isSome_some, true_iff] at ih
        simp [splitFirst, hc, hsf, List.mem_cons, ih]

/-- C10: the diff parsing of `finish_container` is partial: a line parses only
when it contains a space, and the empty diff — the trimmed docker-diff output
of a clean container — yields the single empty line, so `finish_container`
panics (the `unwrap` of the missing path field) instead of pooling the clean
container. -/
theorem finish_container_empty_diff_panic :
    finish_container [] = FinishOutcome.panic
    ∧ splitOnChar '\n' (rustTrim []) = [[]]
    ∧ parse_diff_line [] = none
    ∧ (∀ line : List Char, (parse_diff_line line).isSome = true ↔ ' ' ∈ line)
    ∧ FinishOutcome.panic ≠ FinishOutcome.pooled [] :=
  ⟨rfl, rfl, rfl, fun line => splitFirst_isSome ' ' line, by decide⟩

end Sccache
